import Mathlib

/-!
Shallow embedding of the reservoir-sync-node orchestration code
(`src/services/SyncService.ts` and `src/utils/utils.ts`) together with
theorems settling the specification claims about it.

Dates of the form `yyyy-MM-dd` are embedded as a structure of numeric
fields; the string operation `date.substring(0, 7) + "-01"` used by the
service corresponds to `firstOfMonth` for canonically formatted dates
(four-digit year, two-digit month).  Machine `Buffer` values are embedded
as tagged strings (`Buf`), since no claim depends on byte-level decoding.
-/

namespace ReservoirSync

/-- Calendar date at day granularity, embedding the `yyyy-MM-dd` strings
used throughout `SyncService`. -/
structure SDate where
  year : Nat
  month : Nat
  day : Nat
deriving DecidableEq, Repr

/-- Gregorian leap-year rule, as implemented by the date-fns arithmetic
the source delegates to. -/
def isLeapYear (y : Nat) : Bool :=
  y % 4 == 0 && (y % 100 != 0 || y % 400 == 0)

/-- Days in a given month of a given year (date-fns day clamping). -/
def daysInMonth (y m : Nat) : Nat :=
  if m == 2 then (if isLeapYear y then 29 else 28)
  else if m == 4 || m == 6 || m == 9 || m == 11 then 30
  else 31

/-- Months elapsed since year 0, used to compare month granularity. -/
def monthIndex (d : SDate) : Nat := d.year * 12 + (d.month - 1)

/-- Embeds `utils.ts` `incrementDate(date, \x7bmonths\x7d)` restricted to the
month component, the only component `SyncService` ever passes (date-fns
`add` advances the month count and clamps the day to the target month's
length; the returned `timestamp` field is not consumed by `SyncService`). -/
def incrementDate (d : SDate) (months : Nat) : SDate :=
  let n := monthIndex d + months
  let y := n / 12
  let m := n % 12 + 1
  { year := y, month := m, day := min d.day (daysInMonth y m) }

/-- Embeds the string operation `date.substring(0, 7) + "-01"` used by
`_createManagers` and `_continueWork` on canonical `yyyy-MM-dd` dates. -/
def firstOfMonth (d : SDate) : SDate :=
  { year := d.year, month := d.month, day := 1 }

/-- Day-granularity order on dates (`startOfDay` comparison). -/
def dateLE (a b : SDate) : Bool :=
  a.year < b.year ||
    (a.year == b.year &&
      (a.month < b.month || (a.month == b.month && a.day ≤ b.day)))

/-- Range-validity of a parsed `yyyy-MM-dd` date, embedding date-fns
`isValid` after a strict `parse` (out-of-range components fail). -/
def isWellFormedDate (d : SDate) : Bool :=
  1 ≤ d.month && d.month ≤ 12 && 1 ≤ d.day && d.day ≤ daysInMonth d.year d.month

/-- Embeds `utils.ts` `isValidDate`: the date parses to a valid calendar
date and, at `startOfDay` granularity, is past or equal to today.  The
implicit "now" of the source is passed explicitly as `today`. -/
def isValidDate (d today : SDate) : Bool :=
  isWellFormedDate d && dateLE d today

/-- Normal form of adding `k` months to the month of `d` and taking the
first day of the resulting month. -/
def monthShift (d : SDate) (k : Nat) : SDate :=
  let n := monthIndex d + k
  { year := n / 12, month := n % 12 + 1, day := 1 }

/-- Embeds `utils.ts` `createQuery`, producing the ordered list of query
parameters that the source joins with `&`.  JavaScript truthiness is kept:
the window test `startTimestamp && endTimestamp` requires both bounds
present and nonzero, the continuation is appended only when nonempty, and
the contracts array (defaulted to `[]`) is always traversed. -/
def createQueryList (continuation : String) (contracts : List String)
    (startTimestamp endTimestamp : Option Nat) : List String :=
  let queries := ["orderBy=updated_at", "sortDirection=asc",
    "includeDeleted=true", "limit=1000"]
  let queries :=
    match startTimestamp, endTimestamp with
    | some s, some e =>
      if s != 0 && e != 0 then
        queries ++ ["startTimestamp=" ++ toString (s / 1000),
          "endTimestamp=" ++ toString (e / 1000)]
      else queries
    | _, _ => queries
  let queries :=
    if continuation != "" then queries ++ ["continuation=" ++ continuation]
    else queries
  queries ++ contracts.map (fun c => "contract=" ++ c)

/-- Embeds `createQuery`'s final `queries.join('&')`. -/
def createQuery (continuation : String) (contracts : List String)
    (startTimestamp endTimestamp : Option Nat) : String :=
  String.intercalate "&" (createQueryList continuation contracts startTimestamp endTimestamp)

/-- Node `Buffer` values as produced by the source, abstracted as tagged
source strings: `utf8 s` is `Buffer.from(s)` and `hex s` is
`Buffer.from(s, 'hex')`. -/
inductive Buf where
  | utf8 (s : String)
  | hex (s : String)
deriving DecidableEq, Repr

/-- Embeds `utils.ts` `toBuffer`. -/
def toBuffer (hexValue : String) : Buf := Buf.hex hexValue

/-- Embeds `utils.ts` `addressToBuffer`: `Buffer.from((hexValue || '').slice(2), 'hex')`
(an absent address is modelled as the empty string). -/
def addressToBuffer (hexValue : String) : Buf := Buf.hex (hexValue.drop 2)

/-- Currency descriptor of a raw sale (`sale.price.currency`). -/
structure Currency where
  contract : String
  name : String
  symbol : String
  decimals : Nat
deriving DecidableEq, Repr

/-- Price amount of a raw sale (`sale.price.amount`).  The numeric fields
are only copied by the transform, so their representation is immaterial. -/
structure PriceAmount where
  raw : String
  decimal : Int
  usd : Int
  native : Int
deriving DecidableEq, Repr

/-- Price of a raw sale (`sale.price`). -/
structure Price where
  currency : Currency
  amount : PriceAmount
deriving DecidableEq, Repr

/-- Token of a raw sale (`sale.token`). -/
structure TokenInfo where
  tokenId : String
  contract : String
deriving DecidableEq, Repr

/-- Raw sale as delivered by the upstream API (`SalesSchema`).  The source
fields `from` and `to` are embedded as `fromAddr` and `toAddr` because
`from` is a Lean keyword. -/
structure SalesSchema where
  saleId : String
  token : TokenInfo
  orderId : String
  orderSource : String
  orderSide : String
  orderKind : String
  amount : String
  fromAddr : String
  toAddr : String
  fillSource : String
  block : Nat
  txHash : String
  logIndex : Nat
  batchIndex : Nat
  timestamp : Nat
  washTradingScore : Int
  createdAt : String
  price : Price
  updatedAt : String
  isDeleted : Bool
deriving DecidableEq, Repr

/-- Canonical persisted sales row (`PrismaSalesCreate`).  `isDeleted` is
`Option Bool`: `some b` is a present flag, `none` is the field after the
source's `delete value.isDeleted`.  Source fields `from`/`to` appear as
`fromAddr`/`toAddr`. -/
structure PrismaSalesRow where
  id : Buf
  sale_id : Buf
  token_id : String
  contract_id : Buf
  order_id : Buf
  order_source : String
  order_side : String
  order_kind : String
  amount : String
  fromAddr : Buf
  toAddr : Buf
  fill_source : String
  block : Nat
  tx_hash : Buf
  log_index : Nat
  batch_index : Nat
  timestamp : Nat
  wash_trading_score : Int
  created_at : String
  price_currency_contract : Buf
  updated_at : String
  price_currency_name : String
  price_currency_symbol : String
  price_currency_decimals : Nat
  price_amount_raw : String
  price_amount_decimal : Int
  price_amount_usd : Int
  price_amount_native : Int
  isDeleted : Option Bool
deriving DecidableEq, Repr

/-- Row mapping of `FORMAT_METHODS['sales']` for a single sale. -/
def formatSale (sale : SalesSchema) : PrismaSalesRow :=
  { id := Buf.utf8 (sale.txHash ++ "-" ++ toString sale.logIndex ++ "-" ++ toString sale.batchIndex)
    sale_id := toBuffer sale.saleId
    token_id := sale.token.tokenId
    contract_id := addressToBuffer sale.token.contract
    order_id := addressToBuffer sale.orderId
    order_source := sale.orderSource
    order_side := sale.orderSide
    order_kind := sale.orderKind
    amount := sale.amount
    fromAddr := addressToBuffer sale.fromAddr
    toAddr := addressToBuffer sale.toAddr
    fill_source := sale.fillSource
    block := sale.block
    tx_hash := addressToBuffer sale.txHash
    log_index := sale.logIndex
    batch_index := sale.batchIndex
    timestamp := sale.timestamp
    wash_trading_score := sale.washTradingScore
    created_at := sale.createdAt
    price_currency_contract := addressToBuffer sale.price.currency.contract
    updated_at := sale.updatedAt
    price_currency_name := sale.price.currency.name
    price_currency_symbol := sale.price.currency.symbol
    price_currency_decimals := sale.price.currency.decimals
    price_amount_raw := sale.price.amount.raw
    price_amount_decimal := sale.price.amount.decimal
    price_amount_usd := sale.price.amount.usd
    price_amount_native := sale.price.amount.native
    isDeleted := some sale.isDeleted }

/-- Embeds `FORMAT_METHODS['sales']`: a null or undefined payload
(`!sales`) yields `[]`, otherwise every sale is mapped to a row. -/
def formatSales (sales : Option (List SalesSchema)) : List PrismaSalesRow :=
  match sales with
  | none => []
  | some l => l.map formatSale

/-- Embeds `PARSER_METHODS['sales']`: when a nonempty contract allow-list
is configured the raw payload is filtered (case-insensitively) before
formatting; filtering a null payload raises a `TypeError`, embedded as
`Except.error`. -/
def parseSales (sales : Option (List SalesSchema)) (contracts : List String) :
    Except String (List PrismaSalesRow) :=
  if 0 < contracts.length then
    match sales with
    | none => Except.error "TypeError: sales is null"
    | some l =>
      Except.ok (formatSales (some (l.filter (fun s =>
        (contracts.map (fun c => c.toLower)).contains s.token.contract.toLower))))
  else Except.ok (formatSales sales)

/-- Embeds the source's `delete value.isDeleted`. -/
def stripFlag (r : PrismaSalesRow) : PrismaSalesRow :=
  { r with isDeleted := none }

/-- Effect of one `_insert` call on the storage backend: the rows passed
to `InsertionService.upsert` and the ids passed to `InsertionService.delete`. -/
structure InsertPlan where
  upserts : List PrismaSalesRow
  deleteIds : List Buf
deriving DecidableEq, Repr

/-- Embeds `SyncService._insert` for the sales type: the page is parsed
twice (once per backend call, as in the source); every parsed row has its
flag deleted and is upserted, and the rows whose flag was set are, after
the flag is deleted, sent for deletion by id. -/
def _insert (contracts : List String) (page : Option (List SalesSchema)) :
    Except String InsertPlan := do
  let rowsForUpsert ← parseSales page contracts
  let rowsForDelete ← parseSales page contracts
  pure
    { upserts := rowsForUpsert.map stripFlag
      deleteIds := (rowsForDelete.filter (fun r => r.isDeleted == some true)).map
        (fun r => (stripFlag r).id) }

/-- Observable state of a `SyncManager` as seen by the orchestrator's
review path: its assigned month `date` and its `isBackfilled` report.
(`SyncManager` itself lives outside the two orchestration source files;
review only reads these two fields and writes `manager.config.date`.) -/
structure MState where
  date : SDate
  isBackfilled : Bool
deriving DecidableEq, Repr

/-- Orchestrator fields touched by review: the global assignment cursor
`_date` and the global `_isBackfilled` flag. -/
structure OrchState where
  date : SDate
  isBackfilled : Bool
deriving DecidableEq, Repr

/-- Result of one `_reviewManager` call: the returned boolean, the updated
orchestrator fields, the (possibly reassigned) manager, and the number of
checkpoint writes (`_backup` calls) the call triggered. -/
structure ReviewResult where
  cont : Bool
  state : OrchState
  manager : MState
  backups : Nat
deriving DecidableEq, Repr

/-- Embeds `SyncService._continueWork`: increment the first-of-month of
the global cursor by one month; if the result passes `isValidDate` assign
it to the cursor and to the manager and return `true`, else return
`false` leaving both unchanged. -/
def _continueWork (today : SDate) (s : OrchState) (m : MState) :
    Bool × OrchState × MState :=
  let next := incrementDate (firstOfMonth s.date) 1
  if isValidDate next today then
    (true, { s with date := next }, { m with date := next })
  else
    (false, s, m)

/-- Embeds `SyncService._reviewManager`: a backfilled manager sets the
global flag, triggers a checkpoint and returns `true`; otherwise a
checkpoint is triggered and `_continueWork` decides. -/
def _reviewManager (today : SDate) (s : OrchState) (m : MState) : ReviewResult :=
  if m.isBackfilled then
    { cont := true, state := { s with isBackfilled := true }, manager := m, backups := 1 }
  else
    let r := _continueWork today s m
    { cont := r.1, state := r.2.1, manager := r.2.2, backups := 1 }

/-- Embeds `Number(this.config.managerCount || 1)`: a zero (falsy or
absent) configured count defaults to one. -/
def effManagerCount (mc : Nat) : Nat := if mc == 0 then 1 else mc

/-- Loop body of `SyncService._createManagers`: `fuel` iterations remain,
`date` is the current global cursor, and `first` marks iteration `i = 0`,
which creates a manager at the cursor without advancing it.  Returns the
list of assigned manager dates in creation order and the final cursor. -/
def _createManagersLoop (today : SDate) (fuel : Nat) (date : SDate) (first : Bool) :
    List SDate × SDate :=
  match fuel with
  | 0 => ([], date)
  | Nat.succ n =>
    if first then
      let r := _createManagersLoop today n date false
      (date :: r.1, r.2)
    else
      let next := incrementDate (firstOfMonth date) 1
      if isValidDate next today then
        let r := _createManagersLoop today n next false
        (next :: r.1, r.2)
      else ([], date)

/-- Configuration fields of `SyncService` consumed by manager creation and
restore: the manager count, the configured start date, and the optional
checkpoint (`config.backup.data.managers`), kept as the stored manager
dates — the only checkpoint payload the orchestrator state model observes
(worker state is forwarded verbatim to the external `SyncManager`). -/
structure SyncConfig where
  managerCount : Nat
  date : SDate
  backup : Option (List SDate)
deriving DecidableEq, Repr

/-- Orchestrator state compared by the idempotence claim: the global
cursor `_date` and the managers' assigned dates in creation order
(manager keys are fresh uuids, so only dates are comparable), plus the
global backfilled flag. -/
structure ServiceState where
  date : SDate
  managers : List SDate
  isBackfilled : Bool
deriving DecidableEq, Repr

/-- State established by the `SyncService` constructor. -/
def initialState (cfg : SyncConfig) : ServiceState :=
  { date := cfg.date, managers := [], isBackfilled := false }

/-- Embeds `SyncService._createManagers`: run the creation loop from the
current cursor, adding the created managers to the existing map (`Map.set`
under fresh keys) and leaving the cursor at the last assigned date. -/
def _createManagers (today : SDate) (cfg : SyncConfig) (s : ServiceState) : ServiceState :=
  let r := _createManagersLoop today (effManagerCount cfg.managerCount) s.date true
  { s with managers := s.managers ++ r.1, date := r.2 }

/-- Embeds `SyncService._restoreManagers`: `this.managers` is replaced by
a map rebuilt from the checkpoint's manager list (fresh keys, stored
dates); the global cursor is not touched. -/
def _restoreManagers (ms : List SDate) (s : ServiceState) : ServiceState :=
  { s with managers := ms }

/-- Embeds the synchronous state effect of `SyncService.launch`: restore
from the checkpoint when one is present, otherwise create managers.  (The
subsequent `_launchManagers` call only starts the managers' asynchronous
runs, which belong to the external `SyncManager`.) -/
def launch (today : SDate) (cfg : SyncConfig) (s : ServiceState) : ServiceState :=
  match cfg.backup with
  | some ms => _restoreManagers ms s
  | none => _createManagers today cfg s

/-- Settled result of one manager's `launch()` promise under
`Promise.allSettled`: fulfilled with a resolution value (possibly
`undefined`, i.e. `none`) or rejected with a reason. -/
inductive LaunchOutcome where
  | fulfilled (value : Option String)
  | rejected (reason : String)
deriving DecidableEq, Repr

/-- Embeds reading `promise.value` from a settled result: a rejected
result carries no `value` field, so the read yields `undefined`. -/
def settledValue : LaunchOutcome → Option String
  | LaunchOutcome.fulfilled v => v
  | LaunchOutcome.rejected _ => none

/-- Embeds `SyncService._deleteManager` applied to `promise.value`:
`Map.delete` with key `undefined` matches no string-keyed entry and is a
no-op; otherwise the entry with the given id is removed. -/
def _deleteManager (oid : Option String) (managers : List (String × MState)) :
    List (String × MState) :=
  match oid with
  | none => managers
  | some i => managers.filter (fun p => p.1 != i)

/-- Embeds the join of `SyncService._launchManagers`: await all manager
launch promises, then run `_deleteManager(promise.value)` for each
settled promise in order.  `outcome` gives each manager's settled
promise. -/
def _launchManagers (managers : List (String × MState))
    (outcome : String → LaunchOutcome) : List (String × MState) :=
  (managers.map (fun p => outcome p.1)).foldl
    (fun acc o => _deleteManager (settledValue o) acc) managers

/-- Body of an API response as observed by callers of the request method:
an upstream-provided body, the method's generic failure payload
(`\x7bstatus: 500, message: 'Unknown error.', error\x7d`), or an absent
(`undefined`) body. -/
inductive RespBody where
  | body (s : String)
  | generic
  | absent
deriving DecidableEq, Repr

/-- The `\x7bstatus, data\x7d` pair returned by the request method. -/
structure ApiResponse where
  status : Nat
  data : RespBody
deriving DecidableEq, Repr

/-- Outcome of the `axios.get` call inside `REQUEST_METHODS['sales']`:
resolution with an HTTP status and body, rejection with an `AxiosError`
optionally carrying `err.response` (absent on transport failure), or
rejection with a non-Axios value. -/
inductive AxiosOutcome where
  | resolved (status : Nat) (data : String)
  | axiosRejected (response : Option (Nat × String))
  | otherRejected
deriving DecidableEq, Repr

/-- What the `try` block can throw into the `catch`: the response object
thrown by `if (_res.status !== 200) throw _res` (not an `AxiosError`), an
`AxiosError` from the rejected request, or any other error. -/
inductive CaughtError where
  | thrownResponse (status : Nat) (data : String)
  | axiosErr (response : Option (Nat × String))
  | other
deriving DecidableEq, Repr

/-- Embeds the `catch` block of `REQUEST_METHODS['sales']`: an
`AxiosError` yields `\x7bstatus: err.response?.status || 500, data:
err.response?.data\x7d` (a falsy status defaults to 500 and a missing
response leaves the body `undefined`); anything else yields the generic
failure payload with status 500. -/
def handleCatch (e : CaughtError) : ApiResponse :=
  match e with
  | CaughtError.axiosErr (some (s, d)) =>
    { status := if s == 0 then 500 else s, data := RespBody.body d }
  | CaughtError.axiosErr none => { status := 500, data := RespBody.absent }
  | CaughtError.thrownResponse _ _ => { status := 500, data := RespBody.generic }
  | CaughtError.other => { status := 500, data := RespBody.generic }

/-- Embeds `REQUEST_METHODS['sales']`: a resolved response with status 200
is returned as `\x7bstatus, data\x7d`; a resolved non-200 response is
thrown and caught locally; a rejected request is caught.  The function is
total — every outcome produces an `ApiResponse`. -/
def salesRequest (o : AxiosOutcome) : ApiResponse :=
  match o with
  | AxiosOutcome.resolved s d =>
    if s != 200 then handleCatch (CaughtError.thrownResponse s d)
    else { status := s, data := RespBody.body d }
  | AxiosOutcome.axiosRejected r => handleCatch (CaughtError.axiosErr r)
  | AxiosOutcome.otherRejected => handleCatch CaughtError.other

/-! Helper lemmas about the date arithmetic. -/

/-- Every month has at least one day. -/
lemma one_le_daysInMonth (y m : Nat) : 1 ≤ daysInMonth y m := by
  unfold daysInMonth
  split_ifs <;> omega

/-- A date that passes `isValidDate` is at or before `today` at month
granularity. -/
lemma month_le_of_valid (d t : SDate) (h : isValidDate d t = true) :
    monthIndex d ≤ monthIndex t := by
  unfold isValidDate isWellFormedDate dateLE at h
  simp only [Bool.and_eq_true, Bool.or_eq_true, decide_eq_true_eq, beq_iff_eq] at h
  unfold monthIndex
  omega

/-- The month step the service performs — first-of-month, then one month —
is `monthShift` by one. -/
lemma incrementDate_firstOfMonth (d : SDate) :
    incrementDate (firstOfMonth d) 1 = monthShift d 1 := by
  unfold incrementDate firstOfMonth monthShift monthIndex
  simp [Nat.min_eq_left (one_le_daysInMonth _ _)]

/-- Shifting months composes additively. -/
lemma monthShift_add (d : SDate) (a b : Nat) :
    monthShift (monthShift d a) b = monthShift d (a + b) := by
  simp only [monthShift, monthIndex, Nat.add_sub_cancel, Nat.div_add_mod']
  rw [Nat.add_assoc]

/-- C2: review (`_reviewManager`/`_continueWork`) never assigns a month
strictly later than "now" at month granularity: whenever the manager's
date is reassigned, the new date is a first-of-month date that passes
`isValidDate` against today, hence its month index does not exceed
today's. -/
theorem c2_review_never_future_month (today : SDate) (s : OrchState) (m : MState)
    (h : (_reviewManager today s m).manager.date ≠ m.date) :
    isValidDate (_reviewManager today s m).manager.date today = true
    ∧ monthIndex (_reviewManager today s m).manager.date ≤ monthIndex today
    ∧ (_reviewManager today s m).manager.date.day = 1 := by
  cases hb : m.isBackfilled with
  | true =>
    exact absurd (by simp [_reviewManager, hb]) h
  | false =>
    cases hv : isValidDate (incrementDate (firstOfMonth s.date) 1) today with
    | false =>
      exact absurd (by simp [_reviewManager, _continueWork, hb, hv]) h
    | true =>
      have hm : (_reviewManager today s m).manager.date
          = incrementDate (firstOfMonth s.date) 1 := by
        simp [_reviewManager, _continueWork, hb, hv]
      rw [hm, incrementDate_firstOfMonth]
      rw [incrementDate_firstOfMonth] at hv
      exact ⟨hv, month_le_of_valid _ _ hv, rfl⟩

/-- A concrete "now" (15 March 2023) used by witnesses. -/
def today315 : SDate := { year := 2023, month := 3, day := 15 }

/-- A concrete orchestrator review state with the cursor in January 2023. -/
def sJan : OrchState := { date := { year := 2023, month := 1, day := 20 }, isBackfilled := false }

/-- A concrete non-backfilled manager assigned January 2023. -/
def mJan : MState := { date := { year := 2023, month := 1, day := 20 }, isBackfilled := false }

/-- A concrete backfilled manager assigned March 2023. -/
def mMar : MState := { date := { year := 2023, month := 3, day := 1 }, isBackfilled := true }

/-- C2 witness: a concrete non-backfilled manager reviewed with cursor
January 2023 and today in March 2023 is reassigned, and the reassigned
date satisfies the bound. -/
theorem c2_review_never_future_month_witness :
    ((_reviewManager today315 sJan mJan).manager.date ≠ mJan.date)
    ∧ (isValidDate (_reviewManager today315 sJan mJan).manager.date today315 = true
        ∧ monthIndex (_reviewManager today315 sJan mJan).manager.date ≤ monthIndex today315
        ∧ (_reviewManager today315 sJan mJan).manager.date.day = 1) :=
  ⟨by decide, c2_review_never_future_month _ _ _ (by decide)⟩

/-- C5: reviewing a backfilled manager returns `true`, sets the global
backfilled flag, triggers exactly one checkpoint write, and leaves both
the manager (hence its assigned date) and the global cursor unchanged. -/
theorem c5_review_backfilled (today : SDate) (s : OrchState) (m : MState)
    (h : m.isBackfilled = true) :
    (_reviewManager today s m).cont = true
    ∧ (_reviewManager today s m).state.isBackfilled = true
    ∧ (_reviewManager today s m).backups = 1
    ∧ (_reviewManager today s m).manager = m
    ∧ (_reviewManager today s m).state.date = s.date := by
  simp [_reviewManager, h]

/-- C5 witness: a concrete backfilled manager. -/
theorem c5_review_backfilled_witness :
    (mMar.isBackfilled = true)
    ∧ ((_reviewManager today315 sJan mMar).cont = true
      ∧ (_reviewManager today315 sJan mMar).state.isBackfilled = true
      ∧ (_reviewManager today315 sJan mMar).backups = 1
      ∧ (_reviewManager today315 sJan mMar).manager = mMar
      ∧ (_reviewManager today315 sJan mMar).state.date = sJan.date) :=
  ⟨rfl, c5_review_backfilled _ _ _ rfl⟩

/-- C6: reviewing a non-backfilled manager computes the next month from
the global cursor; if it passes the validity check the manager and the
cursor both move to it and review returns `true`, otherwise review
returns `false` with manager and cursor unchanged; and every review call,
in either branch, triggers exactly one checkpoint write. -/
theorem c6_review_nonbackfilled (today : SDate) (s : OrchState) (m : MState)
    (h : m.isBackfilled = false) :
    (isValidDate (incrementDate (firstOfMonth s.date) 1) today = true →
      _reviewManager today s m =
        { cont := true,
          state := { s with date := incrementDate (firstOfMonth s.date) 1 },
          manager := { m with date := incrementDate (firstOfMonth s.date) 1 },
          backups := 1 })
    ∧ (isValidDate (incrementDate (firstOfMonth s.date) 1) today = false →
      _reviewManager today s m =
        { cont := false, state := s, manager := m, backups := 1 })
    ∧ (∀ m2 : MState, (_reviewManager today s m2).backups = 1) := by
  refine ⟨fun hv => by simp [_reviewManager, _continueWork, h, hv],
    fun hv => by simp [_reviewManager, _continueWork, h, hv], fun m2 => ?_⟩
  cases hb : m2.isBackfilled <;> simp [_reviewManager, _continueWork, hb]

/-- C6 witness: a concrete non-backfilled manager in the valid-month
branch. -/
theorem c6_review_nonbackfilled_witness :
    (mJan.isBackfilled = false)
    ∧ ((isValidDate (incrementDate (firstOfMonth sJan.date) 1) today315 = true →
        _reviewManager today315 sJan mJan =
          { cont := true,
            state := { sJan with date := incrementDate (firstOfMonth sJan.date) 1 },
            manager := { mJan with date := incrementDate (firstOfMonth sJan.date) 1 },
            backups := 1 })
      ∧ (isValidDate (incrementDate (firstOfMonth sJan.date) 1) today315 = false →
        _reviewManager today315 sJan mJan =
          { cont := false, state := sJan, manager := mJan, backups := 1 })
      ∧ (∀ m2 : MState, (_reviewManager today315 sJan m2).backups = 1)) :=
  ⟨rfl, c6_review_nonbackfilled _ _ _ rfl⟩

/-- Specification of the creation loop after its unconditional first
iteration: starting from cursor `d` with `n` iterations of fuel left, the
loop creates at most `n` managers, the `i`-th of them assigned the
first-of-month date `i + 1` months after `d`'s month, every assigned
month passed the validity check, and the loop stops early exactly when
the next computed month fails the validity check. -/
lemma createLoop_false_spec (today : SDate) (n : Nat) (d : SDate) :
    (_createManagersLoop today n d false).1.length ≤ n
    ∧ (∀ i, i < (_createManagersLoop today n d false).1.length →
        (_createManagersLoop today n d false).1.get? i = some (monthShift d (i + 1)))
    ∧ (∀ i, i < (_createManagersLoop today n d false).1.length →
        isValidDate (monthShift d (i + 1)) today = true)
    ∧ ((_createManagersLoop today n d false).1.length < n →
        isValidDate (monthShift d ((_createManagersLoop today n d false).1.length + 1)) today = false) := by
  induction n generalizing d with
  | zero => simp [_createManagersLoop]
  | succ n ih =>
    have hunf : _createManagersLoop today (Nat.succ n) d false
        = (if isValidDate (monthShift d 1) today then
            ((monthShift d 1) :: (_createManagersLoop today n (monthShift d 1) false).1,
              (_createManagersLoop today n (monthShift d 1) false).2)
          else ([], d)) := by
      simp [_createManagersLoop, incrementDate_firstOfMonth]
    cases hv : isValidDate (monthShift d 1) today with
    | false =>
      rw [hunf, if_neg (by simp [hv])]
      refine ⟨by simp, by simp, by simp, ?_⟩
      intro _
      simpa using hv
    | true =>
      rw [hunf, if_pos (by simp [hv])]
      obtain ⟨ih1, ih2, ihv, ih3⟩ := ih (monthShift d 1)
      refine ⟨by simpa using Nat.succ_le_succ ih1, ?_, ?_, ?_⟩
      · intro i hi
        cases i with
        | zero => simp
        | succ j =>
          simp only [List.length_cons] at hi
          have hj : j < (_createManagersLoop today n (monthShift d 1) false).1.length := by omega
          simp only [List.get?_cons_succ]
          rw [ih2 j hj, monthShift_add]
          congr 2
          omega
      · intro i hi
        cases i with
        | zero => simpa using hv
        | succ j =>
          simp only [List.length_cons] at hi
          have := ihv j (by omega)
          rw [monthShift_add] at this
          have harg : 1 + (j + 1) = j + 1 + 1 := by omega
          rw [harg] at this
          exact this
      · intro hlt
        simp only [List.length_cons] at hlt ⊢
        have := ih3 (by omega)
        rw [monthShift_add] at this
        have harg : 1 + ((_createManagersLoop today n (monthShift d 1) false).1.length + 1)
            = (_createManagersLoop today n (monthShift d 1) false).1.length + 1 + 1 := by omega
        rw [harg] at this
        exact this

/-- A concrete "now" (10 March 2023) used by the launch claims. -/
def today310 : SDate := { year := 2023, month := 3, day := 10 }

/-- A concrete configuration without a checkpoint: two managers starting
from 15 January 2023. -/
def cfgNoBackup : SyncConfig :=
  { managerCount := 2, date := { year := 2023, month := 1, day := 15 }, backup := none }

/-- A concrete configuration carrying a checkpoint with two stored
manager dates. -/
def cfgWithBackup : SyncConfig :=
  { managerCount := 2, date := { year := 2023, month := 1, day := 15 },
    backup := some [{ year := 2023, month := 1, day := 1 }, { year := 2023, month := 2, day := 1 }] }

/-- C3 counterexample: without a checkpoint, calling `launch` a second
time does not leave the orchestrator state unchanged — the second call
appends two more managers (February and March 2023) and advances the
global cursor, so `launch` is not idempotent as claimed. -/
theorem c3_counterexample :
    launch today310 cfgNoBackup (launch today310 cfgNoBackup (initialState cfgNoBackup))
      ≠ launch today310 cfgNoBackup (initialState cfgNoBackup) := by decide

/-- C3 amended: `launch` is idempotent when a checkpoint is present — the
restore path rebuilds the manager map from the checkpoint and leaves the
global cursor untouched, so a second call reproduces the same state; the
no-checkpoint creation path is not idempotent. -/
theorem c3_launch_idempotent_with_checkpoint (today : SDate) (cfg : SyncConfig)
    (s : ServiceState) (ms : List SDate) (h : cfg.backup = some ms) :
    launch today cfg (launch today cfg s) = launch today cfg s := by
  simp [launch, h, _restoreManagers]

/-- C3 witness: the concrete checkpointed configuration. -/
theorem c3_launch_idempotent_with_checkpoint_witness :
    cfgWithBackup.backup
        = some [{ year := 2023, month := 1, day := 1 }, { year := 2023, month := 2, day := 1 }]
    ∧ launch today310 cfgWithBackup (launch today310 cfgWithBackup (initialState cfgWithBackup))
      = launch today310 cfgWithBackup (initialState cfgWithBackup) :=
  ⟨rfl, c3_launch_idempotent_with_checkpoint today310 cfgWithBackup (initialState cfgWithBackup) _ rfl⟩

/-- C7: with no checkpoint and a configured manager count of at least one,
`launch` creates at most `managerCount` managers; the first keeps the
configured start date, the `i`-th (0-based, `i ≥ 1`) gets the
first-of-month date `i` calendar months after the start date's month,
every month actually assigned to a manager beyond the first passed the
validity check against "now" (no future month is ever assigned), and
creation stops early — producing fewer managers — exactly when the next
computed month fails the validity check. -/
theorem c7_create_managers (today : SDate) (cfg : SyncConfig)
    (h1 : cfg.backup = none) (h2 : 1 ≤ cfg.managerCount) :
    (launch today cfg (initialState cfg)).managers.length ≤ cfg.managerCount
    ∧ (launch today cfg (initialState cfg)).managers.get? 0 = some cfg.date
    ∧ (∀ i, 1 ≤ i → i < (launch today cfg (initialState cfg)).managers.length →
        (launch today cfg (initialState cfg)).managers.get? i = some (monthShift cfg.date i))
    ∧ (∀ i, 1 ≤ i → i < (launch today cfg (initialState cfg)).managers.length →
        isValidDate (monthShift cfg.date i) today = true)
    ∧ ((launch today cfg (initialState cfg)).managers.length < cfg.managerCount →
        isValidDate (monthShift cfg.date ((launch today cfg (initialState cfg)).managers.length))
          today = false) := by
  obtain ⟨k, hk⟩ : ∃ k, cfg.managerCount = k + 1 := ⟨cfg.managerCount - 1, by omega⟩
  have heff : effManagerCount cfg.managerCount = k + 1 := by
    unfold effManagerCount
    rw [hk]
    simp
  have hmgr : (launch today cfg (initialState cfg)).managers
      = cfg.date :: (_createManagersLoop today k cfg.date false).1 := by
    unfold launch
    rw [h1]
    unfold _createManagers initialState
    rw [heff]
    simp [_createManagersLoop]
  obtain ⟨l1, l2, lv, l3⟩ := createLoop_false_spec today k cfg.date
  rw [hmgr]
  refine ⟨?_, ?_, ?_, ?_, ?_⟩
  · simp only [List.length_cons]
    omega
  · simp
  · intro i hi1 hi2
    obtain ⟨j, rfl⟩ : ∃ j, i = j + 1 := ⟨i - 1, by omega⟩
    simp only [List.length_cons] at hi2
    simp only [List.get?_cons_succ]
    exact l2 j (by omega)
  · intro i hi1 hi2
    obtain ⟨j, rfl⟩ : ∃ j, i = j + 1 := ⟨i - 1, by omega⟩
    simp only [List.length_cons] at hi2
    exact lv j (by omega)
  · intro hlt
    simp only [List.length_cons] at hlt ⊢
    rw [hk] at hlt
    exact l3 (by omega)

/-- C7 witness: the concrete two-manager configuration starting in
January 2023 with "now" in March 2023; the second manager's assigned
month (February 2023) passed the validity check. -/
theorem c7_create_managers_witness :
    cfgNoBackup.backup = none
    ∧ 1 ≤ cfgNoBackup.managerCount
    ∧ (launch today310 cfgNoBackup (initialState cfgNoBackup)).managers.length
        ≤ cfgNoBackup.managerCount
    ∧ (launch today310 cfgNoBackup (initialState cfgNoBackup)).managers.get? 0
        = some cfgNoBackup.date
    ∧ isValidDate (monthShift cfgNoBackup.date 1) today310 = true :=
  ⟨rfl, by decide, (c7_create_managers today310 cfgNoBackup rfl (by decide)).1,
    (c7_create_managers today310 cfgNoBackup rfl (by decide)).2.1,
    (c7_create_managers today310 cfgNoBackup rfl (by decide)).2.2.2.1 1 (by decide) (by decide)⟩

/-- Folding the join's deletions over a list of settled outcomes keeps
exactly the entries whose id is named by no settled value. -/
lemma mem_foldl_delete (vals : List LaunchOutcome) (acc : List (String × MState))
    (p : String × MState) :
    p ∈ vals.foldl (fun a o => _deleteManager (settledValue o) a) acc ↔
      p ∈ acc ∧ ∀ o ∈ vals, settledValue o ≠ some p.1 := by
  induction vals generalizing acc with
  | nil => simp
  | cons o rest ih =>
    rw [List.foldl_cons, ih]
    cases ho : settledValue o with
    | none =>
      simp [_deleteManager, ho]
    | some i =>
      simp only [_deleteManager, ho, List.mem_filter, List.forall_mem_cons, bne_iff_ne]
      constructor
      · rintro ⟨⟨h1, h2⟩, h3⟩
        exact ⟨h1, fun hc => h2 (by simpa using hc.symm), h3⟩
      · rintro ⟨h1, h2, h3⟩
        refine ⟨⟨h1, ?_⟩, h3⟩
        intro he
        exact h2 (by simp [he])

/-- A concrete manager entry for the join claims. -/
def mgrEntryA : String × MState :=
  ("sales-manager-a", { date := { year := 2023, month := 1, day := 1 }, isBackfilled := false })

/-- C4 counterexample: a manager whose launch promise rejects is not
removed from the manager map — the settled result of a rejected promise
carries no `value`, so the join calls `_deleteManager(undefined)`, a
no-op, and the failed manager survives, contrary to the claim that it is
retired. -/
theorem c4_counterexample :
    _launchManagers [mgrEntryA] (fun _ => LaunchOutcome.rejected "review failed")
      = [mgrEntryA] := rfl

/-- C4 amended: after the concurrent join in `_launchManagers`, a manager
remains in the map iff no settled launch promise fulfilled with that
manager's id; in particular a rejected promise (whose settled value is
absent) removes nothing — the rejected manager itself stays — and a
manager's failure never affects any other manager. -/
theorem c4_join_keeps_unnamed_managers (managers : List (String × MState))
    (outcome : String → LaunchOutcome) (p : String × MState) :
    p ∈ _launchManagers managers outcome ↔
      p ∈ managers ∧ ∀ q ∈ managers, settledValue (outcome q.1) ≠ some p.1 := by
  unfold _launchManagers
  rw [mem_foldl_delete]
  constructor
  · rintro ⟨h1, h2⟩
    exact ⟨h1, fun q hq => h2 (outcome q.1) (List.mem_map_of_mem _ hq)⟩
  · rintro ⟨h1, h2⟩
    refine ⟨h1, ?_⟩
    intro o ho
    obtain ⟨q, hq, rfl⟩ := List.mem_map.mp ho
    exact h2 q hq

/-- A concrete sale carrying the soft-delete flag. -/
def saleA : SalesSchema :=
  { saleId := "aa01", token := { tokenId := "1", contract := "0xc001" },
    orderId := "0xo001", orderSource := "opensea.io", orderSide := "ask",
    orderKind := "seaport", amount := "1", fromAddr := "0xf001", toAddr := "0xt001",
    fillSource := "reservoir.tools", block := 101, txHash := "0xtx01", logIndex := 2,
    batchIndex := 1, timestamp := 1672570000, washTradingScore := 0,
    createdAt := "2023-01-01T10:00:00.000Z",
    price :=
      { currency := { contract := "0xcc01", name := "Ether", symbol := "ETH", decimals := 18 },
        amount := { raw := "1000000000000000000", decimal := 1, usd := 1200, native := 1 } },
    updatedAt := "2023-01-01T10:00:00.000Z", isDeleted := true }

/-- A concrete sale without the soft-delete flag. -/
def saleB : SalesSchema :=
  { saleA with saleId := "bb02", txHash := "0xtx02", isDeleted := false }

/-- C1 counterexample: a page consisting of one flagged row is upserted
anyway — `_insert` upserts one row although the page contains zero rows
without the flag, so the upserted rows are not exactly the unflagged
ones. -/
theorem c1_counterexample :
    (_insert [] (some [saleA])).map (fun plan => plan.upserts.length) = Except.ok 1
    ∧ ([saleA].filter (fun s => !s.isDeleted)).length = 0 :=
  ⟨rfl, rfl⟩

/-- C1 amended: `_insert` upserts every parsed row of the page with the
soft-delete flag stripped (not only the unflagged ones), and deletes by
identifier exactly the rows whose flag was set, after stripping the flag;
the flag is never included in any persisted row. -/
theorem c1_insert_upsert_all_delete_flagged (contracts : List String)
    (page : Option (List SalesSchema)) (rows : List PrismaSalesRow)
    (h : parseSales page contracts = Except.ok rows) :
    _insert contracts page = Except.ok
      { upserts := rows.map stripFlag,
        deleteIds := (rows.filter (fun r => r.isDeleted == some true)).map
          (fun r => (stripFlag r).id) }
    ∧ ∀ r ∈ rows.map stripFlag, r.isDeleted = none := by
  constructor
  · unfold _insert
    rw [h]
    rfl
  · intro r hr
    obtain ⟨x, _, rfl⟩ := List.mem_map.mp hr
    rfl

/-- C1 witness: a concrete two-row page, one row flagged and one not. -/
theorem c1_insert_upsert_all_delete_flagged_witness :
    parseSales (some [saleA, saleB]) [] = Except.ok (formatSales (some [saleA, saleB]))
    ∧ (_insert [] (some [saleA, saleB]) = Except.ok
        { upserts := (formatSales (some [saleA, saleB])).map stripFlag,
          deleteIds := ((formatSales (some [saleA, saleB])).filter
              (fun r => r.isDeleted == some true)).map (fun r => (stripFlag r).id) }
      ∧ ∀ r ∈ (formatSales (some [saleA, saleB])).map stripFlag, r.isDeleted = none) :=
  ⟨rfl, c1_insert_upsert_all_delete_flagged [] (some [saleA, saleB])
    (formatSales (some [saleA, saleB])) rfl⟩

/-- C8 counterexample: a transport-level failure (Axios error with no
HTTP response) yields status 500 with an absent body, not the generic
failure payload the claim describes. -/
theorem c8_counterexample :
    salesRequest (AxiosOutcome.axiosRejected none)
      = { status := 500, data := RespBody.absent }
    ∧ RespBody.absent ≠ RespBody.generic :=
  ⟨rfl, by decide⟩

/-- C8 amended: the sales request method never throws and always returns
a status/data pair: a resolved 200 response yields the upstream status
and body; a rejected request carrying an HTTP response yields the
upstream status (500 if the status is falsy) and upstream body; a
transport-level failure with no response yields status 500 with an
absent body; a resolved non-200 response (thrown locally, not an Axios
error) and any non-Axios failure yield the generic payload with
status 500. -/
theorem c8_request_total_characterization (o : AxiosOutcome) :
    salesRequest o =
      match o with
      | AxiosOutcome.resolved s d =>
        if s = 200 then { status := 200, data := RespBody.body d }
        else { status := 500, data := RespBody.generic }
      | AxiosOutcome.axiosRejected (some (s, d)) =>
        { status := if s = 0 then 500 else s, data := RespBody.body d }
      | AxiosOutcome.axiosRejected none => { status := 500, data := RespBody.absent }
      | AxiosOutcome.otherRejected => { status := 500, data := RespBody.generic } := by
  cases o with
  | resolved s d =>
    by_cases hs : s = 200
    · subst hs
      rfl
    · have hb : (s != 200) = true := by simp [bne_iff_ne, hs]
      simp [salesRequest, handleCatch, hb, hs]
  | axiosRejected r =>
    cases r with
    | none => rfl
    | some pr =>
      obtain ⟨s, d⟩ := pr
      by_cases h0 : s = 0 <;> simp [salesRequest, handleCatch, h0]
  | otherRejected => rfl

/-- C9 counterexample: with both window bounds provided but a zero start
timestamp (the epoch, falsy in JavaScript), the query contains no window
parameters although the claim says provided bounds are always emitted. -/
theorem c9_counterexample :
    createQueryList "" [] (some 0) (some 60000)
      = ["orderBy=updated_at", "sortDirection=asc", "includeDeleted=true", "limit=1000"]
    ∧ "startTimestamp=0" ∉ createQueryList "" [] (some 0) (some 60000) :=
  ⟨rfl, by decide⟩

/-- C9 amended: the query is the four fixed parameters in order, then the
start and end timestamps (milliseconds floored to seconds) when both
window bounds are provided and nonzero, then the continuation when
nonempty, then one contract parameter per allow-list entry; the query
string joins these with ampersands. -/
theorem c9_query_order (continuation : String) (contracts : List String)
    (startTimestamp endTimestamp : Option Nat) :
    createQueryList continuation contracts startTimestamp endTimestamp =
      ["orderBy=updated_at", "sortDirection=asc", "includeDeleted=true", "limit=1000"]
      ++ (match startTimestamp, endTimestamp with
          | some s, some e =>
            if s ≠ 0 ∧ e ≠ 0 then
              ["startTimestamp=" ++ toString (s / 1000), "endTimestamp=" ++ toString (e / 1000)]
            else []
          | _, _ => [])
      ++ (if continuation ≠ "" then ["continuation=" ++ continuation] else [])
      ++ contracts.map (fun c => "contract=" ++ c)
    ∧ createQuery continuation contracts startTimestamp endTimestamp =
      String.intercalate "&"
        (createQueryList continuation contracts startTimestamp endTimestamp) := by
  constructor
  · by_cases hc : continuation = ""
    · cases startTimestamp with
      | none => cases endTimestamp <;> simp [createQueryList, hc]
      | some a =>
        cases endTimestamp with
        | none => simp [createQueryList, hc]
        | some b =>
          by_cases ha : a = 0
          · simp [createQueryList, hc, ha]
          · by_cases hb : b = 0
            · simp [createQueryList, hc, ha, hb]
            · simp [createQueryList, hc, ha, hb]
    · cases startTimestamp with
      | none => cases endTimestamp <;> simp [createQueryList, hc]
      | some a =>
        cases endTimestamp with
        | none => simp [createQueryList, hc]
        | some b =>
          by_cases ha : a = 0
          · simp [createQueryList, hc, ha]
          · by_cases hb : b = 0
            · simp [createQueryList, hc, ha, hb]
            · simp [createQueryList, hc, ha, hb]
  · rfl

/-- C10 counterexample: with a nonempty contract allow-list configured,
parsing a null sales payload throws (the filter is applied before the
format method's null guard can run), so the public transform interface
does not produce zero rows. -/
theorem c10_counterexample :
    parseSales none ["0xabc"] = Except.error "TypeError: sales is null" := rfl

/-- C10 amended: the sales format method returns the empty list for a
null or undefined payload, and the public parse interface yields zero
canonical rows for such a payload exactly when no contract allow-list is
configured; with a nonempty allow-list it throws a `TypeError`. -/
theorem c10_null_payload_parse (contract0 : String) (rest : List String) :
    formatSales none = []
    ∧ parseSales none [] = Except.ok []
    ∧ parseSales none (contract0 :: rest) = Except.error "TypeError: sales is null" := by
  refine ⟨rfl, rfl, ?_⟩
  simp [parseSales]

end ReservoirSync
